import Mathlib

/-!
Verification of the synapse repository core against its specification.

Part 1 embeds `src/torrent/picker/rarest.rs` (the rarest-first piece
picker): the `Picker` structure with its `pieces` / `priorities` /
`piece_idx` / `seeders` fields and the operations `new`, `add_peer`,
`remove_peer`, `piece_available`, `piece_unavailable`, `pick`,
`completed`, `incomplete` and `swap_piece`.  Rust `Vec` indexing is
modelled with `List.getD` / `List.set` over `Nat` (in-range behaviour
agrees with the source; the source panics out of range).

Part 2 embeds the decision logic of `src/rpc/mod.rs` (`handle_conn`,
`handle_incoming`, `cleanup`, `remove_client`).  Sockets and the `amy`
registrar are abstracted to an effect trace; the parts of the repository
that are not under `src/` (the `Processor`, the client frame reader) are
modelled from the specification, as marked in their doc comments.
-/

namespace Synapse

/-- Piece status, from `enum PieceStatus` in rarest.rs. -/
inductive PieceStatus where
  | Incomplete : PieceStatus
  | Complete : PieceStatus
deriving DecidableEq

/-- Entry of the `piece_idx` vector, from `struct PieceInfo` in rarest.rs:
position of the piece inside `pieces`, its stored availability, and its
status. -/
structure PieceInfo where
  idx : Nat
  availability : Nat
  status : PieceStatus
deriving DecidableEq

/-- Default `PieceInfo` used as the `getD` fallback (never reached on
in-range indices). -/
def dInfo : PieceInfo := ⟨0, 0, PieceStatus.Incomplete⟩

/-- The picker state, from `struct Picker` in rarest.rs.  The `HashSet`
of seeder ids is modelled as a duplicate-free list. -/
structure Picker where
  pieces : List Nat
  priorities : List Nat
  piece_idx : List PieceInfo
  seeders : List Nat
deriving DecidableEq

/-- `PIECE_COMPLETE_INC` from rarest.rs. -/
def PIECE_COMPLETE_INC : Nat := 100

/-- A remote peer as the picker sees it: its id and its bitfield,
modelled as the bitfield length plus the list of set bit indices. -/
structure Peer where
  id : Nat
  nbits : Nat
  bits : List Nat
deriving DecidableEq

/-- `peer.pieces().has_bit(i)`. -/
def Peer.hasBit (p : Peer) (i : Nat) : Bool := p.bits.contains i

/-- `peer.pieces().complete()`: every bit below the bitfield length is set. -/
def Peer.complete (p : Peer) : Bool :=
  (List.range p.nbits).all (fun i => p.bits.contains i)

/-- `Picker::swap_piece(a, b)` from rarest.rs lines 193-197: update the
`idx` back-pointers of the pieces at positions `a` and `b`, then swap the
two positions of `pieces`. -/
def swap_piece (s : Picker) (a b : Nat) : Picker :=
  let pa := s.pieces.getD a 0
  let pb := s.pieces.getD b 0
  let pidx1 := s.piece_idx.set pa { s.piece_idx.getD pa dInfo with idx := b }
  let pidx2 := pidx1.set pb { pidx1.getD pb dInfo with idx := a }
  { s with piece_idx := pidx2, pieces := (s.pieces.set a pb).set b pa }

/-- `Picker::piece_available(piece)` from rarest.rs lines 85-98:
decrement `priorities[a]` (old availability `a`), increment the piece's
availability, push a fresh boundary if the `priorities` vector is too
short, then swap the piece with the one at the new `priorities[a]`. -/
def piece_available (s : Picker) (piece : Nat) : Picker :=
  let info := s.piece_idx.getD piece dInfo
  let a := info.availability
  let priorities1 := s.priorities.set a (s.priorities.getD a 0 - 1)
  let piece_idx1 := s.piece_idx.set piece { info with availability := a + 1 }
  let priorities2 :=
    if priorities1.length = a + 1 then priorities1 ++ [s.pieces.length]
    else priorities1
  let s1 := { s with priorities := priorities2, piece_idx := piece_idx1 }
  let swap_idx := s1.priorities.getD a 0
  swap_piece s1 info.idx swap_idx

/-- `Picker::piece_unavailable(piece)` from rarest.rs lines 100-110:
decrement the piece's availability (old value `a`), increment
`priorities[a-1]`, then swap the piece with the one at position
`priorities[(a-1)-1]`.  The source indexes `priorities[avail - 1]` with
`avail` the already decremented availability. -/
def piece_unavailable (s : Picker) (piece : Nat) : Picker :=
  let info := s.piece_idx.getD piece dInfo
  let a := info.availability
  let piece_idx1 := s.piece_idx.set piece { info with availability := a - 1 }
  let priorities1 := s.priorities.set (a - 1) (s.priorities.getD (a - 1) 0 + 1)
  let s1 := { s with piece_idx := piece_idx1, priorities := priorities1 }
  let swap_idx := s1.priorities.getD (a - 1 - 1) 0
  swap_piece s1 info.idx swap_idx

/-- The scan of `Picker::pick` from rarest.rs lines 112-124: filter the
`pieces` order down to `Incomplete` pieces and find the first one the
peer has. -/
def pickFind (s : Picker) (peer : Peer) : Option Nat :=
  (s.pieces.filter
    (fun p => decide ((s.piece_idx.getD p dInfo).status = PieceStatus.Incomplete))).find?
    (fun p => peer.hasBit p)

/-- `Picker::pick(peer)` from rarest.rs lines 112-124: on a successful
find, call `piece_unavailable` when the stored availability is even
(`availability % 2 == 0`), and return the piece. -/
def pick (s : Picker) (peer : Peer) : Option Nat × Picker :=
  match pickFind s peer with
  | none => (none, s)
  | some p =>
      (some p,
        if (s.piece_idx.getD p dInfo).availability % 2 = 0 then
          piece_unavailable s p
        else s)

/-- `Picker::completed(piece)` from rarest.rs lines 154-191: set the
status to `Complete` and apply `PIECE_COMPLETE_INC` bumps.  (The trailing
dead code of the source function is not modelled.) -/
def completed (s : Picker) (piece : Nat) : Picker :=
  let info := s.piece_idx.getD piece dInfo
  let s1 := { s with piece_idx := s.piece_idx.set piece { info with status := PieceStatus.Complete } }
  (List.range PIECE_COMPLETE_INC).foldl (fun t _ => piece_available t piece) s1

/-- `Picker::incomplete(piece)` from rarest.rs lines 147-152: set the
status to `Incomplete` and apply `PIECE_COMPLETE_INC` drops. -/
def incomplete (s : Picker) (piece : Nat) : Picker :=
  let info := s.piece_idx.getD piece dInfo
  let s1 := { s with piece_idx := s.piece_idx.set piece { info with status := PieceStatus.Incomplete } }
  (List.range PIECE_COMPLETE_INC).foldl (fun t _ => piece_unavailable t piece) s1

/-- `Picker::new` from rarest.rs lines 35-62: `n` pieces all at
availability 0 and status `Incomplete`, `pieces` in identity order,
`priorities = [n]`; then every piece is bumped once (the `+1` bias) and
the pieces of the local bitfield `own` are marked completed. -/
def Picker.new (n : Nat) (own : List Nat) : Picker :=
  let piece_idx := (List.range n).map (fun i => (⟨i, 0, PieceStatus.Incomplete⟩ : PieceInfo))
  let base : Picker := ⟨List.range n, [n], piece_idx, []⟩
  (List.range n).foldl
    (fun s i =>
      let s1 := piece_available s i
      if own.contains i then completed s1 i else s1)
    base

/-- `Picker::add_peer(peer)` from rarest.rs lines 64-73: a seeder is only
recorded in `seeders`; otherwise every piece of the peer's bitfield is
bumped. -/
def add_peer (s : Picker) (peer : Peer) : Picker :=
  if peer.complete then
    { s with seeders := if s.seeders.contains peer.id then s.seeders else peer.id :: s.seeders }
  else
    peer.bits.foldl piece_available s

/-- `Picker::remove_peer(peer)` from rarest.rs lines 75-83: a tracked
seeder is only removed from `seeders`; otherwise every piece of the
peer's bitfield is dropped. -/
def remove_peer (s : Picker) (peer : Peer) : Picker :=
  if s.seeders.contains peer.id then
    { s with seeders := s.seeders.erase peer.id }
  else
    peer.bits.foldl piece_unavailable s

/-- Stored availability of piece `p`. -/
def availOf (s : Picker) (p : Nat) : Nat := (s.piece_idx.getD p dInfo).availability

/-- Position of piece `p` inside `pieces`. -/
def posOf (s : Picker) (p : Nat) : Nat := (s.piece_idx.getD p dInfo).idx

/-- Invariant §3.1: for every piece `p`, `piece_idx[p].idx` is in range
and `pieces[piece_idx[p].idx] == p`. -/
def posInvB (s : Picker) : Bool :=
  (List.range s.piece_idx.length).all (fun p =>
    decide (posOf s p < s.pieces.length) && (s.pieces.getD (posOf s p) 0 == p))

/-- Invariant §3.2: for every `a` with `a+1 < priorities.len()`, the
sub-range `pieces[priorities[a] .. priorities[a+1]]` contains exactly the
pieces of stored availability `a+1`. -/
def bucketInvB (s : Picker) : Bool :=
  (List.range s.priorities.length).all (fun a =>
    !(decide (a + 1 < s.priorities.length)) ||
    (((List.range s.pieces.length).all (fun i =>
        !(decide (s.priorities.getD a 0 ≤ i) && decide (i < s.priorities.getD (a + 1) 0)) ||
        (availOf s (s.pieces.getD i 0) == a + 1))) &&
     ((List.range s.piece_idx.length).all (fun p =>
        !(availOf s p == a + 1) ||
        (decide (s.priorities.getD a 0 ≤ posOf s p) &&
         decide (posOf s p < s.priorities.getD (a + 1) 0))))))

/-- The structural invariants of claim C1 (§3.1 and §3.2), decidable. -/
def invariantB (s : Picker) : Bool := posInvB s && bucketInvB s

/-- The status column of `piece_idx` (the data `pick` must not touch). -/
def statuses (s : Picker) : List PieceStatus := s.piece_idx.map PieceInfo.status

/-- The `drop` operation exactly as the specification words it (§4.1,
claim C2), to be compared with `piece_unavailable`: with `a` the stored
availability before the call, decrement the availability, swap `p` with
the piece at position `priorities[a] - 1`, then decrement
`priorities[a-1]`. -/
def dropSpec (s : Picker) (p : Nat) : Picker :=
  let info := s.piece_idx.getD p dInfo
  let a := info.availability
  let s1 := { s with piece_idx := s.piece_idx.set p { info with availability := a - 1 } }
  let s2 := swap_piece s1 ((s1.piece_idx.getD p dInfo).idx) (s1.priorities.getD a 0 - 1)
  { s2 with priorities := s2.priorities.set (a - 1) (s2.priorities.getD (a - 1) 0 - 1) }

/-- Single step: decrement the stored availability of piece `p`. -/
def decAvailStep (s : Picker) (p : Nat) : Picker :=
  let info := s.piece_idx.getD p dInfo
  { s with piece_idx := s.piece_idx.set p { info with availability := info.availability - 1 } }

/-- Single step: increment `priorities[a]`. -/
def incPrioStep (s : Picker) (a : Nat) : Picker :=
  { s with priorities := s.priorities.set a (s.priorities.getD a 0 + 1) }

/-- The steps `piece_unavailable` actually performs, written as a
composition of the three elementary steps: decrement the availability of
`p` (old value `a`), increment `priorities[a-1]`, then swap `p` with the
piece at position `priorities[(a-1)-1]` (read after the increment). -/
def dropActual (s : Picker) (p : Nat) : Picker :=
  let a := (s.piece_idx.getD p dInfo).availability
  let s1 := decAvailStep s p
  let s2 := incPrioStep s1 (a - 1)
  swap_piece s2 ((s2.piece_idx.getD p dInfo).idx) (s2.priorities.getD (a - 1 - 1) 0)

/-! Concrete picker scenarios used by the claims. -/

/-- Sequence refuting invariant preservation: three pieces, empty local
bitfield, then a peer holding piece 1, a peer holding piece 2. -/
def c1sAdd : Picker := add_peer (add_peer (Picker.new 3 []) ⟨0, 3, [1]⟩) ⟨0, 3, [2]⟩

/-- Removing the `{1}` peer again from `c1sAdd`. -/
def c1sRem : Picker := remove_peer c1sAdd ⟨0, 3, [1]⟩

/-- Peer 0 of the §8 scenario 1 (the shipped test `test_available`):
bitfield `{0}` out of three pieces. -/
def peerA : Peer := ⟨0, 3, [0]⟩

/-- Peer 1 of the §8 scenario 1: bitfield `{0, 2}`. -/
def peerB : Peer := ⟨0, 3, [0, 2]⟩

/-- Peer 2 of the §8 scenario 1: bitfield `{1}`. -/
def peerC : Peer := ⟨0, 3, [1]⟩

/-- The §8 scenario 1 state: three pieces, empty local bitfield, the
three peers added in order. -/
def scn1 : Picker := add_peer (add_peer (add_peer (Picker.new 3 []) peerA) peerB) peerC

/-- First `pick(peer1)` of scenario 1. -/
def scn1p1 : Option Nat × Picker := pick scn1 peerB

/-- Second `pick(peer1)` of scenario 1. -/
def scn1p2 : Option Nat × Picker := pick scn1p1.2 peerB

/-- Third `pick(peer1)` of scenario 1. -/
def scn1p3 : Option Nat × Picker := pick scn1p2.2 peerB

/-- Fourth pick of scenario 1, with peer 0. -/
def scn1p4 : Option Nat × Picker := pick scn1p3.2 peerA

/-- Fifth pick of scenario 1, with peer 2. -/
def scn1p5 : Option Nat × Picker := pick scn1p4.2 peerC

/-- Reachable two-piece state (new(2, ∅) then a peer holding piece 1)
on which `piece_unavailable` and the spec-worded `dropSpec` disagree. -/
def c2s : Picker := add_peer (Picker.new 2 []) ⟨0, 2, [1]⟩

/-!
Part 2: the RPC reactor of `src/rpc/mod.rs`.

The reactor owns assoc lists keyed by the registrar id in place of the
source's `HashMap`s, and every call on the `amy` registrar or on a
socket is recorded in an `Effect` trace.  The `Processor` and the
client/incoming byte-level readers live outside `src/`, so they are
modelled from the specification where marked.
-/

/-- Server-to-client message, from `proto::message::SMessage` (spec §6):
only the variants the embedded reactor logic can emit, plus the `ERROR`
variant whose absence claim C7 is about. -/
inductive SMsg where
  | transferOffered : Nat → Nat → SMsg
  | transferFailed : SMsg
  | rpcError : SMsg
deriving DecidableEq

/-- Client-to-server message. Modelled from the spec: §4.6 lists the
inbound message set; the subset sufficient for the reactor claims is
subscribe (records a subscription) and the upload-slot request (mints a
token). -/
inductive CMsg where
  | subscribe : Nat → Nat → CMsg
  | uploadTorrent : Nat → CMsg
deriving DecidableEq

/-- Outcome of one `client.read()` call in `handle_conn`: a text frame
with valid JSON, a text frame with malformed JSON, a non-text frame, an
IO error, or (list exhausted) `Ok(None)`. -/
inductive ReadItem where
  | textOk : CMsg → ReadItem
  | textBad : ReadItem
  | nonText : ReadItem
  | ioErr : ReadItem
deriving DecidableEq

/-- Transfer kind, from `processor::TransferKind`: the source matches
`UploadTorrent` and treats every other kind as unimplemented. -/
inductive TransferKind where
  | uploadTorrent : TransferKind
  | other : TransferKind
deriving DecidableEq

/-- A transfer token. Modelled from the spec: §4.6 maps a token to
`(client_id, serial, TransferKind, expiry)`; the expiry instant is
abstracted to an `expired` flag read by the cleanup tick. -/
structure Token where
  tok : Nat
  client : Nat
  kind : TransferKind
  expired : Bool
deriving DecidableEq

/-- The message processor state. Modelled from the spec: §4.6 — the
Processor owns the token table and per-client subscriptions; only what
`remove_client`, `get_transfer` and `remove_expired_tokens` touch is
kept. -/
structure Processor where
  subs : List (Nat × Nat)
  tokens : List Token
  nextTok : Nat
deriving DecidableEq

/-- `Processor::handle_client`. Modelled from the spec: §4.6 — subscribe
records the subscription; an upload request mints a fresh single-use
token and answers with `TRANSFER_OFFERED`. -/
def Processor.handle_client (p : Processor) (id : Nat) (m : CMsg) :
    Processor × List SMsg :=
  match m with
  | CMsg.subscribe _ res => ({ p with subs := (id, res) :: p.subs }, [])
  | CMsg.uploadTorrent serial =>
      ({ p with tokens := ⟨p.nextTok, id, TransferKind.uploadTorrent, false⟩ :: p.tokens,
                nextTok := p.nextTok + 1 },
       [SMsg.transferOffered serial p.nextTok])

/-- `Processor::get_transfer`. Modelled from the spec: §4.6 — single-use
consume of a token. -/
def Processor.get_transfer (p : Processor) (tok : Nat) :
    Processor × Option (Nat × TransferKind) :=
  match p.tokens.find? (fun t => t.tok == tok) with
  | some t =>
      ({ p with tokens := p.tokens.filter (fun u => !(u.tok == tok)) },
       some (t.client, t.kind))
  | none => (p, none)

/-- `Processor::remove_expired_tokens`. Modelled from the spec: §4.6 —
drop tokens past their expiry. -/
def Processor.remove_expired_tokens (p : Processor) : Processor :=
  { p with tokens := p.tokens.filter (fun t => !t.expired) }

/-- `Processor::remove_client`. Modelled from the spec: §4.6 — forget
the client's subscriptions and outstanding tokens. -/
def Processor.remove_client (p : Processor) (id : Nat) : Processor :=
  { p with subs := p.subs.filter (fun e => !(e.1 == id)),
           tokens := p.tokens.filter (fun t => !(t.client == id)) }

/-- A WebSocket client, from `client::Client`: its pending inbound read
results, its outbound buffer, and the idle-timeout state (the deadline
comparison of `client.timed_out()` is abstracted to a flag). -/
structure Client where
  inbox : List ReadItem
  out_buf : List SMsg
  timedOut : Bool
deriving DecidableEq

/-- A fresh client produced by a successful WebSocket upgrade. -/
def Client.fresh : Client := ⟨[], [], false⟩

/-- A not-yet-classified connection, from `client::Incoming`, reduced to
its idle-timeout state. -/
structure Incoming where
  timedOut : Bool
deriving DecidableEq

/-- A running HTTP upload, from `transfer::Transfers`, reduced to the
originating client id and the stalled flag the cleanup tick reads. -/
structure Transfer where
  client : Nat
  stalled : Bool
deriving DecidableEq

/-- Observable actions of the reactor on the registrar and the sockets:
a deregistration of connection `id`, or a frame sent to client `id`. -/
inductive Effect where
  | deregister : Nat → Effect
  | send : Nat → SMsg → Effect
deriving DecidableEq

/-- Whether an effect is a frame sent to a client. -/
def Effect.isSend : Effect → Bool
  | Effect.send _ _ => true
  | _ => false

/-- Whether an effect is a registrar deregistration. -/
def Effect.isDereg : Effect → Bool
  | Effect.deregister _ => true
  | _ => false

/-- The reactor state: the four maps of `struct RPC` that the claims
concern, as assoc lists keyed by registrar id. -/
structure RPCState where
  clients : List (Nat × Client)
  incoming : List (Nat × Incoming)
  transfers : List (Nat × Transfer)
  processor : Processor
deriving DecidableEq

/-- `HashMap` lookup on an assoc list. -/
def lookupA {α : Type} (id : Nat) : List (Nat × α) → Option α
  | [] => none
  | e :: t => if e.1 = id then some e.2 else lookupA id t

/-- `HashMap::remove` on an assoc list. -/
def eraseKey {α : Type} (id : Nat) (l : List (Nat × α)) : List (Nat × α) :=
  l.filter (fun e => !(e.1 == id))

/-- Result of `IncomingStatus` in `handle_incoming` (the byte-level
reader lives outside `src/`, so its outcome is the input here): a
successful WS upgrade, an incomplete header, a complete HTTP transfer
request carrying a token, or a read/parse failure (`Err(e)`). -/
inductive IncomingStatus where
  | upgrade : IncomingStatus
  | incomplete : IncomingStatus
  | transfer : Nat → IncomingStatus
  | fail : IncomingStatus
deriving DecidableEq

/-- `RPC::remove_client` from rpc/mod.rs lines 346-349: purge the
Processor state of the client, then deregister its socket.  The caller
has already taken the client out of the `clients` map. -/
def remove_client (s : RPCState) (id : Nat) : RPCState × List Effect :=
  ({ s with processor := s.processor.remove_client id }, [Effect.deregister id])

/-- The frame loop of `handle_conn` (rpc/mod.rs lines 266-299): process
read results until the socket would block (`Ok(None)`, modelled by the
exhausted list, result `true`) or a malformed message / non-text frame /
IO error breaks the loop with result `false`.  Valid messages go through
`Processor.handle_client` and the replies are sent to the client (sends
are modelled as always succeeding). -/
def readLoop (proc : Processor) (id : Nat) :
    List ReadItem → Processor × List Effect × Bool
  | [] => (proc, [], true)
  | ReadItem.textOk m :: rest =>
      let r := proc.handle_client id m
      let tail := readLoop r.1 id rest
      (tail.1, r.2.map (fun msg => Effect.send id msg) ++ tail.2.1, tail.2.2)
  | ReadItem.textBad :: _ => (proc, [], false)
  | ReadItem.nonText :: _ => (proc, [], false)
  | ReadItem.ioErr :: _ => (proc, [], false)

/-- `RPC::handle_conn` from rpc/mod.rs lines 263-314: take the client
out of the map; on a readable notification run the frame loop, and on a
`false` result disconnect through `remove_client`; otherwise flush the
write buffer on a writable notification and put the client back. -/
def handle_conn (s : RPCState) (id : Nat) (readable writable : Bool) :
    RPCState × List Effect :=
  match lookupA id s.clients with
  | none => (s, [])
  | some c =>
      let clients0 := eraseKey id s.clients
      let r := if readable then readLoop s.processor id c.inbox
               else (s.processor, [], true)
      let c1 := if readable then { c with inbox := [] } else c
      if r.2.2 = false then
        let rc := remove_client { s with clients := clients0, processor := r.1 } id
        (rc.1, r.2.1 ++ rc.2)
      else
        let c2 := if writable then { c1 with out_buf := [] } else c1
        ({ s with clients := (id, c2) :: clients0, processor := r.1 }, r.2.1)

/-- `RPC::handle_incoming` from rpc/mod.rs lines 225-261: take the
connection out of `incoming`; on upgrade it becomes a client, on an
incomplete header it is put back, on a transfer request the token is
consumed and on an `UploadTorrent` hit the socket moves to `transfers`
(an unknown token or an unimplemented kind just drops the connection),
and on a read error the socket is deregistered. -/
def handle_incoming (s : RPCState) (id : Nat) (ev : IncomingStatus) :
    RPCState × List Effect :=
  match lookupA id s.incoming with
  | none => (s, [])
  | some inc =>
      let inc0 := eraseKey id s.incoming
      match ev with
      | IncomingStatus.upgrade =>
          ({ s with incoming := inc0, clients := (id, Client.fresh) :: s.clients }, [])
      | IncomingStatus.incomplete =>
          ({ s with incoming := (id, inc) :: inc0 }, [])
      | IncomingStatus.transfer tok =>
          let r := s.processor.get_transfer tok
          match r.2 with
          | some (cid, TransferKind.uploadTorrent) =>
              ({ s with incoming := inc0, processor := r.1,
                        transfers := (id, ⟨cid, false⟩) :: s.transfers }, [])
          | some (_, TransferKind.other) =>
              ({ s with incoming := inc0, processor := r.1 }, [])
          | none =>
              ({ s with incoming := inc0, processor := r.1 }, [])
      | IncomingStatus.fail =>
          ({ s with incoming := inc0 }, [Effect.deregister id])

/-- `RPC::cleanup` from rpc/mod.rs lines 316-344: expire tokens, retain
only non-timed-out clients and incomings (deregistering the dropped
ones), then surface every stalled transfer: deregister it and send
`TRANSFER_FAILED` to its originating client when that client is still in
the map. -/
def cleanup (s : RPCState) : RPCState × List Effect :=
  let proc1 := s.processor.remove_expired_tokens
  let keptC := s.clients.filter (fun e => !e.2.timedOut)
  let remC := s.clients.filter (fun e => e.2.timedOut)
  let keptI := s.incoming.filter (fun e => !e.2.timedOut)
  let remI := s.incoming.filter (fun e => e.2.timedOut)
  let keptT := s.transfers.filter (fun e => !e.2.stalled)
  let remT := s.transfers.filter (fun e => e.2.stalled)
  let effT := remT.foldr
    (fun e acc =>
      Effect.deregister e.1 ::
        ((if (lookupA e.2.client keptC).isSome then
            [Effect.send e.2.client SMsg.transferFailed]
          else []) ++ acc))
    []
  ({ clients := keptC, incoming := keptI, transfers := keptT, processor := proc1 },
   remC.map (fun e => Effect.deregister e.1) ++
   remI.map (fun e => Effect.deregister e.1) ++ effT)

/-! Concrete reactor states used by the claims. -/

/-- A reactor state with one connected client (id 7) that has a
subscription recorded in the Processor and whose next read result is a
malformed-JSON text frame. -/
def s7 : RPCState :=
  { clients := [(7, ⟨[ReadItem.textBad], [], false⟩)],
    incoming := [], transfers := [],
    processor := ⟨[(7, 1)], [], 0⟩ }

/-- A reactor state with one raw incoming connection (id 3) and an empty
token table. -/
def s8 : RPCState :=
  { clients := [], incoming := [(3, ⟨false⟩)], transfers := [],
    processor := ⟨[], [], 0⟩ }

/-- A reactor state with one idle-timed-out client (id 5) that still has
a subscription recorded in the Processor. -/
def s9 : RPCState :=
  { clients := [(5, ⟨[], [], true⟩)],
    incoming := [], transfers := [],
    processor := ⟨[(5, 1)], [], 0⟩ }

/-! Helper lemmas. -/

/-- Setting an entry of a `PieceInfo` list to a value with the same
status leaves the status column unchanged. -/
theorem map_status_set (l : List PieceInfo) :
    ∀ (i : Nat) (v : PieceInfo), v.status = (l.getD i dInfo).status →
      (l.set i v).map PieceInfo.status = l.map PieceInfo.status := by
  induction l with
  | nil => intro i v _; rfl
  | cons x t ih =>
      intro i v h
      cases i with
      | zero =>
          simp only [List.getD_eq_getElem?_getD, List.getElem?_cons_zero,
            Option.getD_some] at h
          simp [List.set, h]
      | succ n =>
          simp only [List.getD_eq_getElem?_getD, List.getElem?_cons_succ] at h
          simp only [List.set, List.map_cons, List.cons.injEq, true_and]
          exact ih n v (by simpa using h)

/-- `swap_piece` only touches the `idx` back-pointers and the `pieces`
order: the status column is unchanged. -/
theorem swap_piece_statuses (s : Picker) (a b : Nat) :
    statuses (swap_piece s a b) = statuses s := by
  simp only [swap_piece, statuses]
  refine (map_status_set _ _ _ ?_).trans (map_status_set _ _ _ ?_) <;> rfl

/-- `swap_piece` does not touch the seeder set. -/
theorem swap_piece_seeders (s : Picker) (a b : Nat) :
    (swap_piece s a b).seeders = s.seeders := rfl

/-- `swap_piece` preserves the length of `pieces`. -/
theorem swap_piece_length_pieces (s : Picker) (a b : Nat) :
    (swap_piece s a b).pieces.length = s.pieces.length := by
  simp [swap_piece]

/-- `swap_piece` preserves the length of `piece_idx`. -/
theorem swap_piece_length_piece_idx (s : Picker) (a b : Nat) :
    (swap_piece s a b).piece_idx.length = s.piece_idx.length := by
  simp [swap_piece]

/-- `piece_unavailable` leaves the status column unchanged. -/
theorem piece_unavailable_statuses (s : Picker) (p : Nat) :
    statuses (piece_unavailable s p) = statuses s := by
  unfold piece_unavailable
  rw [swap_piece_statuses]
  exact map_status_set _ _ _ rfl

/-- `piece_unavailable` does not touch the seeder set. -/
theorem piece_unavailable_seeders (s : Picker) (p : Nat) :
    (piece_unavailable s p).seeders = s.seeders := rfl

/-- `piece_unavailable` preserves the length of `pieces`. -/
theorem piece_unavailable_length_pieces (s : Picker) (p : Nat) :
    (piece_unavailable s p).pieces.length = s.pieces.length := by
  unfold piece_unavailable
  rw [swap_piece_length_pieces]

/-- `piece_unavailable` preserves the length of `piece_idx`. -/
theorem piece_unavailable_length_piece_idx (s : Picker) (p : Nat) :
    (piece_unavailable s p).piece_idx.length = s.piece_idx.length := by
  unfold piece_unavailable
  rw [swap_piece_length_piece_idx]
  simp

/-- Looking a key up after `eraseKey` of that key always fails. -/
theorem lookupA_eraseKey {α : Type} (id : Nat) (l : List (Nat × α)) :
    lookupA id (eraseKey id l) = none := by
  induction l with
  | nil => rfl
  | cons e t ih =>
      by_cases h : e.1 = id
      · simpa [eraseKey, List.filter_cons, h] using ih
      · simpa [eraseKey, List.filter_cons, h, lookupA] using ih

/-! Claim theorems. -/

/-- Claim C1: for every sequence of picker operations the structural
invariants (§3.1, §3.2) hold after every call.  Evaluating the code at a
failing sequence refutes this: after `new(3, ∅)`, `add_peer({1})`,
`add_peer({2})` the invariants hold, but after the further
`remove_peer({1})` the availability-1 bucket
`pieces[priorities[0] .. priorities[1])` contains the availability-2
piece 2 — `piece_unavailable` swaps with `priorities[a-2]` instead of the
left edge `priorities[a-1]` of the old bucket, a slip against the
documented priority-bounds layout of the `priorities` field. -/
theorem c1_invariant_violated :
    invariantB c1sAdd = true ∧ invariantB c1sRem = false := by decide

/-- Claim C2 counterexample: on the reachable two-piece state `c2s`
(piece 0 at availability 1, piece 1 at availability 2) the
`piece_unavailable` of the source does not perform the spec's steps
(`dropSpec`): the source yields `pieces = [1, 0]`, `priorities =
[0, 2, 2]`, while the spec's wording yields `pieces = [0, 1]`,
`priorities = [0, 0, 2]`. -/
theorem c2_dropSpec_counterexample : piece_unavailable c2s 1 ≠ dropSpec c2s 1 := by
  decide

/-- Claim C2 amended: for a piece of stored availability `a ≥ 2`,
`piece_unavailable` decrements the availability, increments
`priorities[a-1]`, and then swaps the piece with the one at position
`priorities[(a-1)-1]` read after the increment — the step composition
`dropActual`. -/
theorem c2_drop_steps (s : Picker) (p : Nat)
    (_h : 2 ≤ (s.piece_idx.getD p dInfo).availability) :
    piece_unavailable s p = dropActual s p := by
  have key : ((s.piece_idx.set p
        { s.piece_idx.getD p dInfo with
          availability := (s.piece_idx.getD p dInfo).availability - 1 }).getD p dInfo).idx
      = (s.piece_idx.getD p dInfo).idx := by
    by_cases hp : p < s.piece_idx.length
    · simp [List.getD_eq_getElem?_getD, List.getElem?_set_self hp]
    · rw [List.set_eq_of_length_le (Nat.le_of_not_lt hp)]
  simp only [piece_unavailable, dropActual, decAvailStep, incPrioStep, key]

/-- Claim C2 amended, witness: the state `c2s` with piece 1 satisfies
the availability bound and the step equation. -/
theorem c2_drop_steps_witness :
    2 ≤ (c2s.piece_idx.getD 1 dInfo).availability ∧
      piece_unavailable c2s 1 = dropActual c2s 1 :=
  ⟨by decide, c2_drop_steps c2s 1 (by decide)⟩

/-- Claim C3: `pick` is claimed to call drop exactly on odd stored
availability and to leave even-availability picks unchanged.  Evaluating
the code refutes this: in state `scn1` the first `pick(peer1)` selects
piece 2, whose stored availability 2 is even, and the pick drops it to 1
— the source tests `availability % 2 == 0`, the inverse of the spec's
and of its own comment's odd/unpicked convention. -/
theorem c3_parity_inverted :
    scn1p1.1 = some 2 ∧ availOf scn1 2 = 2 ∧ availOf scn1 2 % 2 = 0 ∧
      availOf scn1p1.2 2 = 1 := by decide

/-- Claim C4: the §8 scenario 1 call sequence is claimed to yield picks
`(some 2, some 0, none, none, some 1)`, as the shipped test
`test_available` also asserts.  Evaluating the code yields
`(some 2, some 2, some 2, some 0, some 1)` instead: the second
`pick(peer1)` returns piece 2 again, so the code fails its own test from
the second assertion on. -/
theorem c4_scenario_diverges :
    scn1p1.1 = some 2 ∧ scn1p2.1 = some 2 ∧ scn1p3.1 = some 2 ∧
      scn1p4.1 = some 0 ∧ scn1p5.1 = some 1 := by decide

set_option maxHeartbeats 1000000 in
/-- Claim C5: two consecutive picks with the same peer are claimed to
return different pieces when the peer has at least two eligible pieces.
Evaluating the code refutes this: in state `scn1` the two distinct
pieces 0 and 2 are both eligible for peer 1 (`Incomplete` and held, both
before and after the first pick), yet both consecutive picks return
piece 2. -/
theorem c5_consecutive_picks_equal :
    (scn1.piece_idx.getD 0 dInfo).status = PieceStatus.Incomplete ∧
    (scn1.piece_idx.getD 2 dInfo).status = PieceStatus.Incomplete ∧
    peerB.hasBit 0 = true ∧ peerB.hasBit 2 = true ∧
    (scn1p1.2.piece_idx.getD 0 dInfo).status = PieceStatus.Incomplete ∧
    (scn1p1.2.piece_idx.getD 2 dInfo).status = PieceStatus.Incomplete ∧
    scn1p1.1 = some 2 ∧ scn1p2.1 = some 2 := by decide

/-- Claim C6: whenever `pick` returns `Some(p)`, the peer's bitfield has
bit `p` set and piece `p` is `Incomplete` in the state the pick scanned. -/
theorem c6_pick_sound (s : Picker) (peer : Peer) (p : Nat)
    (h : (pick s peer).1 = some p) :
    peer.hasBit p = true ∧
      (s.piece_idx.getD p dInfo).status = PieceStatus.Incomplete := by
  unfold pick at h
  cases hf : pickFind s peer with
  | none => rw [hf] at h; simp at h
  | some q =>
      rw [hf] at h
      simp only [Option.some.injEq] at h
      subst h
      unfold pickFind at hf
      have hmem := List.mem_of_find?_eq_some hf
      have hpred := List.find?_some hf
      rw [List.mem_filter] at hmem
      exact ⟨hpred, of_decide_eq_true hmem.2⟩

/-- Claim C6 witness: in state `scn1` the pick with peer 1 returns
piece 2, which peer 1 holds and which is `Incomplete`. -/
theorem c6_pick_sound_witness :
    peerB.hasBit 2 = true ∧
      (scn1.piece_idx.getD 2 dInfo).status = PieceStatus.Incomplete :=
  c6_pick_sound scn1 peerB 2 (by decide)

/-- Claim C10: `pick` modifies at most the `pieces` ordering, the
`priorities` boundaries and the `idx` / `availability` fields: the
status column, the seeder set and the lengths of `pieces` and
`piece_idx` are unchanged by every `pick`. -/
theorem c10_pick_frame (s : Picker) (peer : Peer) :
    statuses (pick s peer).2 = statuses s ∧
    (pick s peer).2.seeders = s.seeders ∧
    (pick s peer).2.pieces.length = s.pieces.length ∧
    (pick s peer).2.piece_idx.length = s.piece_idx.length := by
  cases hf : pickFind s peer with
  | none => simp [pick, hf]
  | some p =>
      simp only [pick, hf]
      by_cases hav : (s.piece_idx.getD p dInfo).availability % 2 = 0
      · simp only [if_pos hav]
        exact ⟨piece_unavailable_statuses s p, piece_unavailable_seeders s p,
          piece_unavailable_length_pieces s p, piece_unavailable_length_piece_idx s p⟩
      · rw [if_neg hav]
        exact ⟨rfl, rfl, rfl, rfl⟩

/-- Claim C7 counterexample: in state `s7` client 7 delivers one
malformed-JSON text frame; the claim says the server sends an `ERROR`
frame before closing, but the effect trace of `handle_conn` is exactly
one deregistration and contains no send at all, while the client is
indeed removed. -/
theorem c7_no_error_frame_counterexample :
    (handle_conn s7 7 true false).2 = [Effect.deregister 7] ∧
    (handle_conn s7 7 true false).2.filter Effect.isSend = [] ∧
    lookupA 7 (handle_conn s7 7 true false).1.clients = none := by decide

/-- Claim C7 amended: when a connected client's next read result is a
malformed-JSON text frame, `handle_conn` closes the connection without
sending any frame: the effect trace is exactly one deregistration of
that client's socket, the client is removed from the map, and its
Processor subscriptions are purged. -/
theorem c7_malformed_disconnect (s : RPCState) (id : Nat) (c : Client)
    (hc : lookupA id s.clients = some c)
    (hin : c.inbox = [ReadItem.textBad]) :
    (handle_conn s id true false).2 = [Effect.deregister id] ∧
    lookupA id (handle_conn s id true false).1.clients = none ∧
    ∀ e ∈ (handle_conn s id true false).1.processor.subs, e.1 ≠ id := by
  have hred : handle_conn s id true false =
      ({ s with clients := eraseKey id s.clients,
                processor := s.processor.remove_client id },
        [Effect.deregister id]) := by
    unfold handle_conn
    rw [hc]
    simp [hin, readLoop, remove_client]
  rw [hred]
  refine ⟨rfl, lookupA_eraseKey id s.clients, ?_⟩
  intro e he hcontra
  have := (List.mem_filter.mp he).2
  subst hcontra
  simp at this

/-- Claim C7 amended, witness: state `s7` with client 7 and its
malformed inbox satisfies the hypotheses and the conclusion. -/
theorem c7_malformed_disconnect_witness :
    (handle_conn s7 7 true false).2 = [Effect.deregister 7] ∧
    lookupA 7 (handle_conn s7 7 true false).1.clients = none ∧
    ∀ e ∈ (handle_conn s7 7 true false).1.processor.subs, e.1 ≠ 7 :=
  c7_malformed_disconnect s7 7 ⟨[ReadItem.textBad], [], false⟩ rfl rfl

/-- Claim C8: every path that destroys an Incoming is claimed to
deregister its socket.  Evaluating the code at the invalid-token path
refutes this: in state `s8` the incoming connection 3 delivers a
transfer request with the unknown token 99; `handle_incoming` drops the
connection (it is in none of the three maps afterwards) yet the effect
trace is empty — no deregistration is issued. -/
theorem c8_invalid_token_leak :
    (handle_incoming s8 3 (IncomingStatus.transfer 99)).2 = [] ∧
    (handle_incoming s8 3 (IncomingStatus.transfer 99)).1.incoming = [] ∧
    (handle_incoming s8 3 (IncomingStatus.transfer 99)).1.clients = [] ∧
    (handle_incoming s8 3 (IncomingStatus.transfer 99)).1.transfers = [] := by decide

/-- Claim C9 counterexample: in state `s9` client 5 is idle-timed-out
and owns the Processor subscription `(5, 1)`; the claim says the cleanup
tick purges the Processor state of a client it destroys, but after
`cleanup` the client is deregistered and gone while its subscription is
still present. -/
theorem c9_cleanup_no_purge_counterexample :
    (cleanup s9).1.processor.subs = [(5, 1)] ∧
    (cleanup s9).2 = [Effect.deregister 5] ∧
    (cleanup s9).1.clients = [] := by decide

/-- Claim C9 amended: the error paths purge through `remove_client`
(whose Processor state drops every entry of the client), but the cleanup
tick does not: it deregisters every timed-out client and removes it from
the map while leaving the Processor subscriptions exactly as they were. -/
theorem c9_cleanup_keeps_subs (s : RPCState) (id : Nat) (c : Client)
    (hmem : (id, c) ∈ s.clients) (ht : c.timedOut = true) :
    (cleanup s).1.processor.subs = s.processor.subs ∧
    Effect.deregister id ∈ (cleanup s).2 ∧
    (∀ e ∈ (cleanup s).1.clients, e.2.timedOut = false) ∧
    (∀ e ∈ (s.processor.remove_client id).subs, e.1 ≠ id) := by
  refine ⟨rfl, ?_, ?_, ?_⟩
  · simp only [cleanup]
    refine List.mem_append_left _ (List.mem_append_left _ ?_)
    exact List.mem_map.mpr ⟨(id, c), List.mem_filter.mpr ⟨hmem, by simp [ht]⟩, rfl⟩
  · intro e he
    have := (List.mem_filter.mp he).2
    simpa using this
  · intro e he hcontra
    have := (List.mem_filter.mp he).2
    subst hcontra
    simp at this

/-- Claim C9 amended, witness: state `s9` with its timed-out client 5
satisfies the hypotheses and the conclusion. -/
theorem c9_cleanup_keeps_subs_witness :
    (cleanup s9).1.processor.subs = s9.processor.subs ∧
    Effect.deregister 5 ∈ (cleanup s9).2 ∧
    (∀ e ∈ (cleanup s9).1.clients, e.2.timedOut = false) ∧
    (∀ e ∈ (s9.processor.remove_client 5).subs, e.1 ≠ 5) :=
  c9_cleanup_keeps_subs s9 5 ⟨[], [], true⟩ (by decide) rfl

end Synapse
